import Mathlib

/-!
Shallow embedding of the `acopy` plugin sources (`src/pants/plugins.py` and
`src/pants/cli.py`) together with proofs of the spec's testable properties.

Conventions of the embedding:
* Python floats are modelled as rationals (`ℚ`); all the arithmetic the
  plugins perform (sums, means, midpoints, deposits) is exact in the source.
* A Python expression that can raise (`None + 1`, `x % 0`, `min([])`,
  `sum(...) / 0`) is modelled with `Option`/`Except`: `none`/`.error` is the
  raised exception.
* Python `%` on integers is floored modulo, i.e. `Int.fmod`.
* A stateful plugin object becomes a structure, and each hook becomes a
  function from the old state (plus the arguments the hook reads from the
  solver) to the new state and the hook's effect.
-/

namespace Acopy

/-! ### `PeriodicActionPlugin` (plugins.py lines 21-36) -/

/-- State of a `PeriodicActionPlugin`: the `period` passed to `__init__`
(stored unchecked, so any integer is representable) and the private counter
`index`, which is `None` until `initialize` runs. -/
structure PeriodicActionPlugin where
  period : Int
  index : Option Int
deriving DecidableEq

/-- `PeriodicActionPlugin.__init__(self, period=50)`: stores `period` with no
validation and sets `index = None`. -/
def periodicInit (period : Int) : PeriodicActionPlugin :=
  { period := period, index := none }

/-- `PeriodicActionPlugin.initialize`: resets the counter to 0 at bind time. -/
def periodicInitialize (p : PeriodicActionPlugin) : PeriodicActionPlugin :=
  { p with index := some 0 }

/-- `PeriodicActionPlugin.on_iteration`:
`self.index = (self.index + 1) % self.period; if not self.index: self.action(...)`.
Returns the new state and whether `action` fired.  `none` models an
exception: Python raises `TypeError` when `index` is still `None` and
`ZeroDivisionError` when `period == 0`.  Python `%` is `Int.fmod`; the Python
truthiness test `not self.index` fires exactly when the new counter is 0. -/
def periodicOnIteration (p : PeriodicActionPlugin) : Option (PeriodicActionPlugin × Bool) :=
  match p.index with
  | none => none
  | some i =>
    if p.period = 0 then none
    else
      let i2 := Int.fmod (i + 1) p.period
      some ({ p with index := some i2 }, decide (i2 = 0))

/-- Run `n` consecutive `on_iteration` calls, collecting the fired flags in
call order (flag `k` of the list is the `(k+1)`-th call, 1-based). -/
def periodicRun (p : PeriodicActionPlugin) : Nat → Option (PeriodicActionPlugin × List Bool)
  | 0 => some (p, [])
  | n + 1 =>
    match periodicRun p n with
    | none => none
    | some (q, fs) =>
      match periodicOnIteration q with
      | none => none
      | some (r, f) => some (r, fs ++ [f])

/-- For a positive period `P`, after `n` calls the counter holds `n % P` and
the flag of the `(i+1)`-th call records whether `P` divides `i+1`. -/
theorem periodicRun_closed_form (P : Int) (hP : 0 < P) (n : Nat) :
    periodicRun (periodicInitialize (periodicInit P)) n =
      some (⟨P, some ((n : Int) % P)⟩,
        (List.range n).map (fun i : Nat => decide (P ∣ ((i : Int) + 1)))) := by
  induction n with
  | zero =>
    simp [periodicRun, periodicInitialize, periodicInit]
  | succ n ih =>
    have hP0 : P ≠ 0 := ne_of_gt hP
    rw [periodicRun, ih]
    have hfmod : Int.fmod ((n : Int) % P + 1) P = ((n : Int) + 1) % P := by
      rw [Int.fmod_eq_emod _ (le_of_lt hP), Int.emod_add_emod]
    have hdvd : decide (((n : Int) + 1) % P = 0) = decide (P ∣ ((n : Int) + 1)) :=
      decide_eq_decide.mpr Int.dvd_iff_emod_eq_zero.symm
    simp only [periodicOnIteration, hP0, if_false, hfmod, hdvd]
    rw [List.range_succ, List.map_append]
    push_cast
    rfl

/-- C1: with `period = 3` and the counter bound to 0, seven consecutive
`on_iteration` calls fire the action exactly on the 3rd and the 6th call;
in general, for any positive period `P`, the `(i+1)`-th call (1-based index
`i+1`) fires iff `P` divides `i+1`. -/
theorem periodic_fires_on_multiples :
    periodicRun (periodicInitialize (periodicInit 3)) 7 =
      some (⟨3, some 1⟩, [false, false, true, false, false, true, false]) ∧
    ∀ (P : Int), 0 < P → ∀ (n i : Nat), i < n →
      ∃ st fs, periodicRun (periodicInitialize (periodicInit P)) n = some (st, fs) ∧
        (fs.getD i false = true ↔ P ∣ ((i : Int) + 1)) := by
  constructor
  · decide
  · intro P hP n i hi
    refine ⟨_, _, periodicRun_closed_form P hP n, ?_⟩
    rw [List.getD_eq_getElem?_getD, List.getElem?_map, List.getElem?_range hi]
    simp

/-- Witness for C1 at `P = 3`, `n = 7`, `i = 2` (the 3rd call). -/
theorem periodic_fires_on_multiples_witness :
    (0 : Int) < 3 ∧ (2 : Nat) < 7 ∧
      ∃ st fs, periodicRun (periodicInitialize (periodicInit 3)) 7 = some (st, fs) ∧
        (fs.getD 2 false = true ↔ (3 : Int) ∣ ((2 : Nat) : Int) + 1) :=
  ⟨by decide, by decide, periodic_fires_on_multiples.2 3 (by decide) 7 2 (by decide)⟩

/-! ### `PheromoneFlip` (plugins.py lines 45-53)

The action iterates `state.graph.edges.values()` in a fixed order, collects
`(pheromone, edge)` pairs, unzips them into `levels` and `edges` (both in
that same iteration order), and then runs
`for edge, level in zip(edges, reversed(levels)): edge['pheromone'] = level`.
The graph is represented by the list of edge pheromone levels in iteration
order, so the edge at position `i` receives the former level of position
`n - 1 - i`: the whole effect on the level list is `List.reverse`.  There is
no sorting anywhere in the action. -/

/-- `PheromoneFlip.action` on the list of edge pheromone levels taken in edge
iteration order. -/
def pheromoneFlipAction (levels : List ℚ) : List ℚ :=
  levels.reverse

/-- C2 counterexample: with levels `[1, 3, 2]` the edge at position 0 holds
the unique lowest level (1) and the highest level present is 3, so the claim
demands that position 0 receive 3; the action instead produces `[2, 3, 1]`,
whose position 0 holds 2 ≠ 3.  The reassignment is positional reversal, not
rank-order reversal. -/
theorem pheromoneFlip_not_rank_order :
    pheromoneFlipAction [(1 : ℚ), 3, 2] = [2, 3, 1] ∧ ((2 : ℚ) ≠ 3) := by
  constructor
  · rfl
  · norm_num

/-- C2 amended: `PheromoneFlip.action` reverses the levels positionally in
edge iteration order — the edge at position `i` receives the level that was
previously at position `n - 1 - i` — deterministically and with no sorting. -/
theorem pheromoneFlip_positional_reverse (levels : List ℚ) (i : Nat)
    (h : i < levels.length) :
    (pheromoneFlipAction levels).getD i 0 =
      levels.getD (levels.length - 1 - i) 0 ∧
    (pheromoneFlipAction levels).length = levels.length := by
  refine ⟨?_, List.length_reverse levels⟩
  rw [pheromoneFlipAction, List.getD_eq_getElem?_getD, List.getD_eq_getElem?_getD,
    List.getElem?_reverse h]

/-- Witness for C2's amended theorem at `levels = [1, 3, 2]`, `i = 0`. -/
theorem pheromoneFlip_positional_reverse_witness :
    (0 : Nat) < ([(1 : ℚ), 3, 2] : List ℚ).length ∧
      ((pheromoneFlipAction [(1 : ℚ), 3, 2]).getD 0 0 =
        ([(1 : ℚ), 3, 2] : List ℚ).getD (([(1 : ℚ), 3, 2] : List ℚ).length - 1 - 0) 0 ∧
      (pheromoneFlipAction [(1 : ℚ), 3, 2]).length = ([(1 : ℚ), 3, 2] : List ℚ).length) :=
  ⟨by decide, pheromoneFlip_positional_reverse [(1 : ℚ), 3, 2] 0 (by decide)⟩

/-- C3: on a graph with at least one edge, the action permutes the pheromone
values without changing their multiset, and applying it twice restores every
edge's original value (stated under the claim's all-distinct hypothesis). -/
theorem pheromoneFlip_perm_involutive (levels : List ℚ) (h : levels ≠ [])
    (hd : levels.Nodup) :
    (pheromoneFlipAction levels).Perm levels ∧
    pheromoneFlipAction (pheromoneFlipAction levels) = levels := by
  exact ⟨List.reverse_perm levels, List.reverse_reverse levels⟩

/-- Witness for C3 at `levels = [1, 3, 2]`. -/
theorem pheromoneFlip_perm_involutive_witness :
    ([(1 : ℚ), 3, 2] : List ℚ) ≠ [] ∧
      ((pheromoneFlipAction [(1 : ℚ), 3, 2]).Perm [(1 : ℚ), 3, 2] ∧
       pheromoneFlipAction (pheromoneFlipAction [(1 : ℚ), 3, 2]) = [(1 : ℚ), 3, 2]) :=
  ⟨by decide, pheromoneFlip_perm_involutive [(1 : ℚ), 3, 2] (by decide) (by decide)⟩

/-! ### `StatRecorder` (plugins.py lines 56-123) -/

/-- A completed ant tour as the dedup logic sees it: Python
equality/hashing of solutions is by the ordered node sequence, and each
solution carries its tour `weight`.  Node labels are modelled as naturals. -/
structure Solution where
  nodes : List Nat
  weight : ℚ
deriving DecidableEq

/-- The `'solutions'` part of the snapshot built by
`StatRecorder.on_iteration`. -/
structure SolutionsStats where
  best : ℚ
  worst : ℚ
  avg : ℚ
  iteration : Nat
deriving DecidableEq

/-- The solution statistics of `StatRecorder.on_iteration`:
`distances = [solution.weight for solution in state.solutions]`,
`solutions = set(state.solutions)`, `num_ants = len(solutions)`, then
`best = min(distances)`, `worst = max(distances)`,
`avg = sum(distances) / num_ants`, `iteration = len(solutions)`.
`none` models the `ValueError` Python's `min`/`max` raise on an empty
population.  `set(state.solutions)` is `List.dedup`, whose length is the
number of distinct solutions. -/
def statSnapshot (solutions : List Solution) : Option SolutionsStats :=
  let distances := solutions.map (fun s => s.weight)
  let uniq := solutions.dedup
  match distances.min?, distances.max? with
  | some b, some w =>
      some { best := b, worst := w,
             avg := distances.sum / (uniq.length : ℚ),
             iteration := uniq.length }
  | _, _ => none

/-- The seen-solutions bookkeeping of `StatRecorder.on_iteration`:
`old_count = len(solutions_seen); solutions_seen.update(solutions);
num_new_solutions = len(solutions_seen) - old_count`.  Returns the updated
set and the recorded `new` count. -/
def seenUpdate (seen : Finset Solution) (solutions : List Solution) :
    Finset Solution × Nat :=
  let newSeen := seen ∪ solutions.toFinset
  (newSeen, newSeen.card - seen.card)

/-- C4 counterexample: a population of two ants that found the same tour
(nodes `[0, 1, 2]`, weight 2 each).  The population has 2 solutions and
total weight 4, so the claim demands `avg = 4 / 2 = 2` and `iteration = 2`;
the code deduplicates first (`num_ants = len(set(...)) = 1`) and records
`avg = 4 / 1 = 4` and `iteration = 1`. -/
theorem statSnapshot_duplicate_counterexample :
    ([⟨[0, 1, 2], 2⟩, ⟨[0, 1, 2], 2⟩] : List Solution).length = 2 ∧
    (([⟨[0, 1, 2], 2⟩, ⟨[0, 1, 2], 2⟩] : List Solution).map (fun s => s.weight)).sum = 4 ∧
    statSnapshot [⟨[0, 1, 2], 2⟩, ⟨[0, 1, 2], 2⟩] =
      some { best := 2, worst := 2, avg := 4, iteration := 1 } ∧
    ((4 : ℚ) ≠ 4 / 2) ∧ ((1 : Nat) ≠ 2) := by
  refine ⟨rfl, by norm_num, ?_, by norm_num, by decide⟩
  have hdedup : ([⟨[0, 1, 2], 2⟩, ⟨[0, 1, 2], 2⟩] : List Solution).dedup =
      [⟨[0, 1, 2], 2⟩] := by decide
  simp [statSnapshot, hdedup, List.min?_cons', List.max?_cons']
  norm_num [SolutionsStats.mk.injEq]

/-- C4 amended: for a snapshot recorded from a population, `best` is the
minimum and `worst` the maximum tour weight over all solutions of
`state.solutions`, while `avg` is the population's total weight divided by
the number of *distinct* solutions and `iteration` is that distinct count
(the code passes the population through `set` before counting). -/
theorem statSnapshot_fields (solutions : List Solution) (st : SolutionsStats)
    (h : statSnapshot solutions = some st) :
    (∀ s ∈ solutions, st.best ≤ s.weight ∧ s.weight ≤ st.worst) ∧
    st.best ∈ solutions.map (fun s => s.weight) ∧
    st.worst ∈ solutions.map (fun s => s.weight) ∧
    st.avg = (solutions.map (fun s => s.weight)).sum / (solutions.dedup.length : ℚ) ∧
    st.iteration = solutions.dedup.length := by
  unfold statSnapshot at h
  set distances := solutions.map (fun s => s.weight) with hdist
  rcases hmin : distances.min? with _ | b <;> rcases hmax : distances.max? with _ | w <;>
    simp only [hmin, hmax] at h
  · exact absurd h (by simp)
  · exact absurd h (by simp)
  · exact absurd h (by simp)
  · obtain rfl := Option.some.inj h
    have hble : ∀ x ∈ distances, b ≤ x :=
      fun x hx => ((List.le_min?_iff (fun _ _ _ => le_min_iff) hmin).mp (le_refl b)) x hx
    have hwle : ∀ x ∈ distances, x ≤ w :=
      fun x hx => ((List.max?_le_iff (fun _ _ _ => max_le_iff) hmax).mp (le_refl w)) x hx
    refine ⟨?_, ?_, ?_, rfl, rfl⟩
    · intro s hs
      have hmem : s.weight ∈ distances := by
        rw [hdist]; exact List.mem_map_of_mem _ hs
      exact ⟨hble _ hmem, hwle _ hmem⟩
    · exact List.min?_mem (fun _ _ => min_choice _ _) hmin
    · exact List.max?_mem (fun _ _ => max_choice _ _) hmax

/-- Witness for C4's amended theorem on the two-solution population
`[⟨[0], 2⟩, ⟨[1], 4⟩]`. -/
theorem statSnapshot_fields_witness :
    statSnapshot [⟨[0], 2⟩, ⟨[1], 4⟩] =
      some { best := 2, worst := 4, avg := 3, iteration := 2 } ∧
    ((∀ s ∈ ([⟨[0], 2⟩, ⟨[1], 4⟩] : List Solution),
        SolutionsStats.best { best := 2, worst := 4, avg := 3, iteration := 2 } ≤ s.weight ∧
        s.weight ≤ SolutionsStats.worst { best := 2, worst := 4, avg := 3, iteration := 2 }) ∧
      SolutionsStats.best { best := 2, worst := 4, avg := 3, iteration := 2 } ∈
        ([⟨[0], 2⟩, ⟨[1], 4⟩] : List Solution).map (fun s => s.weight) ∧
      SolutionsStats.worst { best := 2, worst := 4, avg := 3, iteration := 2 } ∈
        ([⟨[0], 2⟩, ⟨[1], 4⟩] : List Solution).map (fun s => s.weight) ∧
      SolutionsStats.avg { best := 2, worst := 4, avg := 3, iteration := 2 } =
        (([⟨[0], 2⟩, ⟨[1], 4⟩] : List Solution).map (fun s => s.weight)).sum /
          ((([⟨[0], 2⟩, ⟨[1], 4⟩] : List Solution).dedup.length : Nat) : ℚ) ∧
      SolutionsStats.iteration { best := 2, worst := 4, avg := 3, iteration := 2 } =
        ([⟨[0], 2⟩, ⟨[1], 4⟩] : List Solution).dedup.length) :=
  ⟨by norm_num [statSnapshot, List.dedup],
   statSnapshot_fields [⟨[0], 2⟩, ⟨[1], 4⟩] _ (by norm_num [statSnapshot, List.dedup])⟩

/-- C5: one `on_iteration` call only grows the seen-solutions set — every
previously seen solution is still present, the cardinality does not
decrease — and the recorded `new` count equals the increase in the set's
cardinality during the call. -/
theorem seenUpdate_monotone (seen : Finset Solution) (solutions : List Solution) :
    seen ⊆ (seenUpdate seen solutions).1 ∧
    seen.card ≤ (seenUpdate seen solutions).1.card ∧
    (seenUpdate seen solutions).2 = (seenUpdate seen solutions).1.card - seen.card := by
  refine ⟨Finset.subset_union_left, ?_, rfl⟩
  exact Finset.card_le_card Finset.subset_union_left

/-! ### `EliteTracer` (plugins.py lines 13-18) -/

/-- Modelled from the spec: `Solution.trace` is defined in the solver module,
which is not among the given sources; per the spec it "deposits `amount`
pheromone onto every edge in the tour", mutating the graph and nothing else.
Edges are indexed by naturals and the graph state is its pheromone
assignment. -/
def trace (tour : List Nat) (amount : ℚ) (pheromone : Nat → ℚ) : Nat → ℚ :=
  fun e => if e ∈ tour then pheromone e + amount else pheromone e

/-- `EliteTracer.on_iteration`: `state.best.trace(self.solver.q * self.factor)`.
The deposit rate `q` is read from the bound solver at call time, so it enters
here as an argument of the call, not as cached plugin state. -/
def eliteTracerOnIteration (q factor : ℚ) (bestTour : List Nat)
    (pheromone : Nat → ℚ) : Nat → ℚ :=
  trace bestTour (q * factor) pheromone

/-- C6: each edge on the best solution's tour gains exactly `q * factor`
pheromone, where `q` is the solver's deposit rate at call time, and every
edge off the tour is unchanged. -/
theorem eliteTracer_deposit (q factor : ℚ) (bestTour : List Nat)
    (pheromone : Nat → ℚ) (e : Nat) :
    (e ∈ bestTour → eliteTracerOnIteration q factor bestTour pheromone e =
      pheromone e + q * factor) ∧
    (e ∉ bestTour → eliteTracerOnIteration q factor bestTour pheromone e =
      pheromone e) := by
  constructor <;> intro he <;> simp [eliteTracerOnIteration, trace, he]

/-- Witness for C6: `q = 1`, `factor = 2`, best tour `[0, 1]`, uniform
pheromone 1, at the on-tour edge 0. -/
theorem eliteTracer_deposit_witness :
    (0 : Nat) ∈ [0, 1] ∧
    eliteTracerOnIteration 1 2 [0, 1] (fun _ => (1 : ℚ)) 0 =
      (fun _ => (1 : ℚ)) 0 + 1 * 2 :=
  ⟨by decide, (eliteTracer_deposit 1 2 [0, 1] (fun _ => (1 : ℚ)) 0).1 (by decide)⟩

/-! ### `DarwinPlugin` (cli.py lines 87-101) -/

/-- The per-ant fields the plugin touches. -/
structure Ant where
  alpha : ℚ
  beta : ℚ
deriving DecidableEq

/-- `DarwinPlugin` state: `sigma` from `__init__` and the tracked mean
`alpha`/`beta` set by `on_start`. -/
structure DarwinPlugin where
  sigma : ℚ
  alpha : ℚ
  beta : ℚ
deriving DecidableEq

/-- `DarwinPlugin.on_start`: `size = len(state.ants)`;
`self.alpha = sum(ant.alpha for ant in state.ants) / size` and likewise for
`beta`.  With zero ants Python raises a bare `ZeroDivisionError`, modelled
as the `.error` branch. -/
def darwinOnStart (sigma : ℚ) (ants : List Ant) : Except String DarwinPlugin :=
  if ants.length = 0 then Except.error "ZeroDivisionError"
  else Except.ok
    { sigma := sigma,
      alpha := (ants.map (fun a => a.alpha)).sum / (ants.length : ℚ),
      beta := (ants.map (fun a => a.beta)).sum / (ants.length : ℚ) }

/-- `random.gauss(mu, sigma)` modelled with an externally supplied standard
draw `z`: the sample is `mu + sigma * z`. -/
def gauss (mu sigma z : ℚ) : ℚ := mu + sigma * z

/-- The resampling center of `DarwinPlugin.on_iteration`:
`(self.alpha + state.best.alpha) / 2` (and likewise for `beta`). -/
def darwinTarget (tracked best : ℚ) : ℚ := (tracked + best) / 2

/-- `DarwinPlugin.on_iteration`: computes the midpoint targets, then sets
every ant's `alpha` and `beta` to independent `gauss(target, self.sigma)`
draws; `noise i` is the pair of standard draws consumed for ant `i`.
Returns the plugin state after the call together with the new ant list;
the code never assigns `self.alpha`/`self.beta` here. -/
def darwinOnIteration (p : DarwinPlugin) (bestAlpha bestBeta : ℚ)
    (ants : List Ant) (noise : Nat → ℚ × ℚ) : DarwinPlugin × List Ant :=
  let alpha := darwinTarget p.alpha bestAlpha
  let beta := darwinTarget p.beta bestBeta
  (p, ants.mapIdx (fun i _ =>
    { alpha := gauss alpha p.sigma (noise i).1,
      beta := gauss beta p.sigma (noise i).2 }))

/-- C7: the resampling center used by `on_iteration` is exactly the midpoint
of the tracked mean and the best solution's parameters, and each component
lies between the two combined values (proved for every population, hence in
particular for every non-empty one). -/
theorem darwinTarget_midpoint_convex (p : DarwinPlugin) (bestAlpha bestBeta : ℚ)
    (ants : List Ant) (noise : Nat → ℚ × ℚ) :
    ((darwinOnIteration p bestAlpha bestBeta ants noise).2 = ants.mapIdx (fun i _ =>
      { alpha := gauss (darwinTarget p.alpha bestAlpha) p.sigma (noise i).1,
        beta := gauss (darwinTarget p.beta bestBeta) p.sigma (noise i).2 })) ∧
    darwinTarget p.alpha bestAlpha = (p.alpha + bestAlpha) / 2 ∧
    min p.alpha bestAlpha ≤ darwinTarget p.alpha bestAlpha ∧
    darwinTarget p.alpha bestAlpha ≤ max p.alpha bestAlpha ∧
    min p.beta bestBeta ≤ darwinTarget p.beta bestBeta ∧
    darwinTarget p.beta bestBeta ≤ max p.beta bestBeta := by
  refine ⟨rfl, rfl, ?_, ?_, ?_, ?_⟩ <;> unfold darwinTarget
  · rcases le_total p.alpha bestAlpha with h | h
    · rw [min_eq_left h]; linarith
    · rw [min_eq_right h]; linarith
  · rcases le_total p.alpha bestAlpha with h | h
    · rw [max_eq_right h]; linarith
    · rw [max_eq_left h]; linarith
  · rcases le_total p.beta bestBeta with h | h
    · rw [min_eq_left h]; linarith
    · rw [min_eq_right h]; linarith
  · rcases le_total p.beta bestBeta with h | h
    · rw [max_eq_right h]; linarith
    · rw [max_eq_left h]; linarith

/-- C10: `DarwinPlugin.on_iteration` leaves the controller's tracked
`sigma`/`alpha`/`beta` fields exactly as they were; only the ants change. -/
theorem darwinOnIteration_frame (p : DarwinPlugin) (bestAlpha bestBeta : ℚ)
    (ants : List Ant) (noise : Nat → ℚ × ℚ) :
    (darwinOnIteration p bestAlpha bestBeta ants noise).1 = p := rfl

/-- C8: on an empty population the code does abort, but with the bare
exception of the operation that happens to fail first — `ZeroDivisionError`
from `sum(...) / size` in `DarwinPlugin.on_start`, and the `ValueError` of
`min([])` (modelled as `none`) in `StatRecorder.on_iteration` — not with a
descriptive "empty population" condition. -/
theorem emptyPopulation_failure :
    darwinOnStart (1 / 10) [] = Except.error "ZeroDivisionError" ∧
    statSnapshot [] = none :=
  ⟨rfl, rfl⟩

/-- C9: `PeriodicActionPlugin.__init__` performs no validation, so
construction with a non-positive period succeeds and simply stores it; with
`period = 0` the failure surfaces only later, as a `ZeroDivisionError` on
the first `on_iteration` call (the trailing conjunct). -/
theorem periodicInit_accepts_nonpositive :
    periodicInit 0 = { period := 0, index := none } ∧
    periodicInit (-5) = { period := -5, index := none } ∧
    periodicOnIteration (periodicInitialize (periodicInit 0)) = none :=
  ⟨rfl, rfl, rfl⟩

end Acopy
